import Mathlib

/-!
Shallow embedding of `utils/dataloaders/dataloader_train.py` from the
lynch-lab/Penguins repository: the dataset-discovery function
`make_dataset`, the extension filter `has_file_allowed_extension`,
the `DatasetFolder` class (`__init__`, `__getitem__`), the default
image loader `pil_loader`, and the `IMG_EXTENSIONS` constant.

Modelling conventions:
- Python strings are `List Char` (`PyStr`); `str.lower` is modelled with
  `Char.toLower`, which agrees with Python on ASCII (all strings appearing
  in the loader's logic are ASCII).
- The filesystem traversal `os.walk(dir)` is an external collaborator; its
  result is passed in as a `Walk`: the list of `(directory, files)` pairs
  in traversal order (`dirs` is unused by the source).
- Images decoded by PIL are abstracted as a channel mode plus a 2-D pixel
  grid (`PILImage`); the pixel-level work of `Image.convert` is done by the
  external PIL library, so `pilConvert` records only the resulting mode.
- `np.float32` arithmetic is modelled exactly over `ℚ` (the statistics
  computed here are a sum of natural numbers divided by a pixel count).
-/

set_option autoImplicit false

namespace Penguins

/-- A Python string, as its list of characters. -/
abbrev PyStr := List Char

/-- Python `s.lower()` (ASCII fragment, via `Char.toLower`). -/
def pyToLowerStr (s : PyStr) : PyStr := s.map Char.toLower

/-- Python `s.endswith(suffix)`. -/
def pyEndsWith (s suffix : PyStr) : Bool := suffix.isSuffixOf s

/-- Whether `sub` occurs as a contiguous run somewhere in the second string
(scan left to right). -/
def hasSubstring (sub : PyStr) : PyStr → Bool
  | [] => sub.isEmpty
  | c :: rest => sub.isPrefixOf (c :: rest) || hasSubstring sub rest

/-- Python `sub in s` (substring containment). -/
def pyContains (s sub : PyStr) : Bool := hasSubstring sub s

/-- Auxiliary recursion for `pyReplace`, with fuel `n ≥ s.length` so that the
left-to-right scan is structurally recursive (each step consumes at least one
character of `s` and one unit of fuel). -/
def pyReplaceAux (old new : PyStr) : Nat → PyStr → PyStr
  | _, [] => []
  | 0, s => s
  | n + 1, c :: rest =>
    if old ≠ [] ∧ old.isPrefixOf (c :: rest) then
      new ++ pyReplaceAux old new n (rest.drop (old.length - 1))
    else
      c :: pyReplaceAux old new n rest

/-- Python `s.replace(old, new)`: replace every (non-overlapping, leftmost)
occurrence of `old` in `s` by `new`.  The unused `old = ""` corner case is
modelled as the identity (the source only ever calls it with `old = "x"`). -/
def pyReplace (old new s : PyStr) : PyStr := pyReplaceAux old new s.length s

/-- Python posix `os.path.join(root, fname)` for the two-argument form. -/
def osPathJoin (root fname : PyStr) : PyStr :=
  if fname.head? = some '/' then fname
  else if root = [] ∨ root.getLast? = some '/' then root ++ fname
  else root ++ '/' :: fname

/-- The function `has_file_allowed_extension(filename, extensions)` from the source:
lowercase the filename, then test whether it ends with any entry of
`extensions` (the entries themselves are used verbatim). -/
def has_file_allowed_extension (filename : PyStr) (extensions : List PyStr) : Bool :=
  let filename_lower := pyToLowerStr filename
  extensions.any (fun ext => pyEndsWith filename_lower ext)

/-- The module-level `IMG_EXTENSIONS` list; note the last entry is the bare
string `'webp'`, with no leading dot. -/
def IMG_EXTENSIONS : List PyStr :=
  [(".jpg".data), (".jpeg".data), (".png".data), (".ppm".data), (".bmp".data),
   (".pgm".data), (".tif".data), (".tiff".data), ("webp".data)]

/-- The function `is_image_file(filename)` from the source. -/
def is_image_file (filename : PyStr) : Bool :=
  has_file_allowed_extension filename IMG_EXTENSIONS

/-- One `[path_x, path_y, label]` entry appended by `make_dataset`. -/
structure SampleRecord where
  path_x : PyStr
  path_y : PyStr
  label : Int
  deriving DecidableEq, Repr

/-- The result of the external `os.walk(dir)` traversal: `(root, files)`
pairs in traversal order (the `dirs` component is unused by the source). -/
abbrev Walk := List (PyStr × List PyStr)

/-- The body of `make_dataset`'s inner loop for a single `(root, fname)`
pair: the `if`/`elif` classification chain of lines 37-48 of the source.
Returns the record appended for this file, or `none` if it does not
qualify. -/
def classifyFile (root fname : PyStr) (extensions : List PyStr) : Option SampleRecord :=
  if has_file_allowed_extension fname extensions && pyContains root ("background".data) then
    some ⟨osPathJoin root fname, ("empty".data), 0⟩
  else if has_file_allowed_extension fname extensions && pyContains root ("x".data) then
    if pyContains root ("True".data) then
      let path_x := osPathJoin root fname
      some ⟨path_x, pyReplace ("x".data) ("y".data) path_x, 2⟩
    else
      let path_x := osPathJoin root fname
      some ⟨path_x, pyReplace ("x".data) ("y".data) path_x, 1⟩
  else
    none

/-- The function `make_dataset(dir, extensions)` from the source, over the walk of
`dir`: both loops, with qualifying files appended in traversal order. -/
def make_dataset (walk : Walk) (extensions : List PyStr) : List SampleRecord :=
  walk.flatMap (fun entry => entry.2.filterMap (fun fname => classifyFile entry.1 fname extensions))

/-- PIL channel modes used by the source (`'L'` single-channel grayscale,
`'RGB'` three-channel color). -/
inductive Mode where
  | L : Mode
  | RGB : Mode
  deriving DecidableEq, Repr

/-- A decoded PIL image: its channel mode and its 2-D pixel grid, as
`np.array` sees it (row-major, `pixels[i][j]` the value at row `i`,
column `j`).  The per-channel structure of an RGB image is abstracted:
no claim below depends on individual color channels. -/
structure PILImage where
  mode : Mode
  pixels : List (List Nat)
  deriving DecidableEq, Repr

/-- Model of PIL `img.convert(mode)`: the pixel-level conversion is performed
inside the external PIL library, so only the resulting channel mode is
tracked; the abstract pixel grid is carried through. -/
def pilConvert (img : PILImage) (m : Mode) : PILImage := { img with mode := m }

/-- The function `pil_loader(path)` from the source, over an abstract raw decoder
(`Image.open`, an external collaborator): convert to `'L'` when the path
contains the character `'y'`, else to `'RGB'`. -/
def pil_loader (decode : PyStr → PILImage) (path : PyStr) : PILImage :=
  let img := decode path
  if pyContains path ("y".data) then pilConvert img Mode.L
  else pilConvert img Mode.RGB

/-- Model of `np.sum(arr.nonzero())` for a 2-D array: `nonzero()` returns the pair of
row-index and column-index arrays of the nonzero entries, and `np.sum` adds
every entry of both, i.e. `Σ (i + j)` over the nonzero positions `(i, j)`. -/
def npNonzeroIndexSum (px : List (List Nat)) : Nat :=
  ((px.enum).map (fun r => ((r.2.enum).map (fun c => if c.2 ≠ 0 then r.1 + c.1 else 0)).sum)).sum

/-- The count of nonzero entries of a 2-D array (`np.count_nonzero`);
this is what a literal reading of "area" would compute, stated here only
to compare against `npNonzeroIndexSum`. -/
def npNonzeroCount (px : List (List Nat)) : Nat :=
  (px.map (fun row => row.countP (fun v => v ≠ 0))).sum

/-- Model of `np.array(img).size` for a 2-D array: number of rows times number of
columns (the grids produced by the loader model are rectangular). -/
def npSize (px : List (List Nat)) : Nat := px.length * (px.headD []).length

/-- Line 105 / 112 of the source:
`np.sum(np.array(target).nonzero()).astype(np.float32) / np.array(target).size`,
modelled exactly over `ℚ` (the `np.float32` value is the rounding of this
rational; the claims are about the formula, which is exact here). -/
def npArea (px : List (List Nat)) : ℚ := (npNonzeroIndexSum px : ℚ) / (npSize px : ℚ)

/-- Model of `np.zeros([n, n], dtype=np.uint8)`. -/
def npZeros (n : Nat) : List (List Nat) := List.replicate n (List.replicate n 0)

/-- Python list subscripting `l[index]` with an `int` index: a negative
index has the length added once; the access fails (raises `IndexError`)
exactly when the adjusted index is still outside `[0, len(l))`. -/
def pyListGet {α : Type} (l : List α) (index : Int) : Option α :=
  let n : Int := l.length
  let j : Int := if index < 0 then index + n else index
  if 0 ≤ j ∧ j < n then l.get? j.toNat else none

/-- The state of a constructed `DatasetFolder` object: the fields assigned
by `__init__`.  `loader` and `transform` are the externally supplied
callables (the paired transform takes and returns an image pair). -/
structure DatasetFolder where
  root : PyStr
  loader : PyStr → PILImage
  extensions : List PyStr
  classes : List Int
  samples : List (PyStr × PyStr)
  patch_size : Nat
  transform : Option (PILImage → PILImage → PILImage × PILImage)

/-- Method `DatasetFolder.__init__`: run `make_dataset` over the walk of `root`,
raise `RuntimeError` when it found nothing, else store the per-record
labels in `classes` and the `(path_x, path_y)` pairs in `samples`. -/
def DatasetFolder.init (walk : Walk) (root : PyStr) (loader : PyStr → PILImage)
    (extensions : List PyStr) (patch_size : Nat)
    (transform : Option (PILImage → PILImage → PILImage × PILImage)) :
    Except PyStr DatasetFolder :=
  let samples := make_dataset walk extensions
  if samples.length = 0 then
    Except.error (("Found 0 files in subfolders of: ".data) ++ root ++
      ("\nSupported extensions are: ".data) ++ (List.intercalate (",".data) extensions))
  else
    Except.ok
      { root := root
        loader := loader
        extensions := extensions
        classes := samples.map (fun ele => ele.label)
        samples := samples.map (fun ele => (ele.path_x, ele.path_y))
        patch_size := patch_size
        transform := transform }

/-- Lines 103-108 of `__getitem__`: load the target and compute the `area`
statistic.  Non-`'empty'` target path: decode the target and apply the
index-sum formula; `'empty'`: synthesize a `patch_size × patch_size`
all-zero single-channel image with `area = 0`. -/
def DatasetFolder.targetAndArea (d : DatasetFolder) (path_y : PyStr) : PILImage × ℚ :=
  if path_y ≠ ("empty".data) then
    let target := d.loader path_y
    (target, npArea target.pixels)
  else
    (⟨Mode.L, npZeros d.patch_size⟩, 0)

/-- Method `DatasetFolder.__getitem__(index)`: subscript `samples` and `classes`
(Python semantics, so a failed subscript is `none`), load the input image,
load or synthesize the target and its `area`, then apply the optional paired
transform, recomputing `area` from the transformed target when
`label != 0`. -/
def DatasetFolder.getitem (d : DatasetFolder) (index : Int) :
    Option (PILImage × PILImage × ℚ × Int) :=
  match pyListGet d.samples index with
  | none => none
  | some (path_x, path_y) =>
    let sample := d.loader path_x
    match pyListGet d.classes index with
    | none => none
    | some label =>
      let ta := d.targetAndArea path_y
      match d.transform with
      | some t =>
        let st := t sample ta.1
        let area := if label ≠ 0 then npArea st.2.pixels else ta.2
        some (st.1, st.2, area, label)
      | none => some (sample, ta.1, ta.2, label)

/-- Method `DatasetFolder.__len__`. -/
def DatasetFolder.len (d : DatasetFolder) : Nat := d.samples.length

/-- Method `ImageFolderTrain.__init__`: a `DatasetFolder` over `IMG_EXTENSIONS`
with the default loader (`pil_loader` over a raw decoder, the non-accimage
backend). -/
def ImageFolderTrain.init (walk : Walk) (root : PyStr) (decode : PyStr → PILImage)
    (patch_size : Nat)
    (transform : Option (PILImage → PILImage → PILImage × PILImage)) :
    Except PyStr DatasetFolder :=
  DatasetFolder.init walk root (pil_loader decode) IMG_EXTENSIONS patch_size transform

/-- Stated from the specification's words, for comparison with the source's
`pyReplace` (claim C1): `input_path` with only the FIRST occurrence of `old`
replaced by `new` and every later character, including later occurrences of
`old`, left unchanged. -/
def replaceFirstSpec (old new : PyStr) : PyStr → PyStr
  | [] => []
  | c :: rest =>
    if old ≠ [] ∧ old.isPrefixOf (c :: rest) then new ++ (c :: rest).drop old.length
    else c :: replaceFirstSpec old new rest

/-! ### Concrete fixtures used by witnesses and counterexamples -/

/-- A concrete raw decoder standing in for `Image.open`: the grayscale mask
at `y/a.png` has one nonzero pixel at column 2, every other file decodes to
a 2×2 color image. -/
def witLoader : PyStr → PILImage := fun p =>
  if p = ("y/a.png".data) then ⟨Mode.L, [[0, 0, 7]]⟩ else ⟨Mode.RGB, [[1, 2], [3, 4]]⟩

/-- A raw decoder that always yields an RGB image (used to show that
`pil_loader`'s mode choice overrides it). -/
def witDecode : PyStr → PILImage := fun _ => ⟨Mode.RGB, [[1]]⟩

/-- A concrete walk: one directory matching the `'x'` rule, one matching the
`'background'` rule. -/
def witWalk : Walk := [(("x".data), [("a.png".data)]), (("background".data), [("b.png".data)])]

/-- The label-1 record discovery produces from `witWalk`'s first entry. -/
def witRec1 : SampleRecord := ⟨("x/a.png".data), ("y/a.png".data), 1⟩

/-- The dataset `DatasetFolder.init` builds over `witWalk` with no
transform. -/
def witDS : DatasetFolder :=
  { root := ("data".data)
    loader := witLoader
    extensions := IMG_EXTENSIONS
    classes := [1, 0]
    samples := [(("x/a.png".data), ("y/a.png".data)), (("background/b.png".data), ("empty".data))]
    patch_size := 2
    transform := none }

/-- A concrete paired transform whose output target is nonzero everywhere
(so that any recomputed area would be nonzero). -/
def witTransform : PILImage → PILImage → PILImage × PILImage :=
  fun s _ => (s, ⟨Mode.L, [[3, 3], [3, 3]]⟩)

/-- The dataset `DatasetFolder.init` builds over `witWalk` with
`witTransform` configured. -/
def witDSt : DatasetFolder :=
  { root := ("data".data)
    loader := witLoader
    extensions := IMG_EXTENSIONS
    classes := [1, 0]
    samples := [(("x/a.png".data), ("y/a.png".data)), (("background/b.png".data), ("empty".data))]
    patch_size := 2
    transform := some witTransform }

/-! ### Helper lemmas -/

theorem x_data_eq : ("x".data) = ['x'] := rfl

theorem y_data_eq : ("y".data) = ['y'] := rfl

theorem pyReplaceAux_singleton (a b : Char) :
    ∀ (n : Nat) (s : PyStr), s.length ≤ n →
      pyReplaceAux [a] [b] n s = s.map (fun c => if c = a then b else c) := by
  intro n
  induction n with
  | zero =>
    intro s hs
    cases s with
    | nil => rfl
    | cons c rest => simp at hs
  | succ n ih =>
    intro s hs
    cases s with
    | nil => rfl
    | cons c rest =>
      simp only [List.length_cons, Nat.add_le_add_iff_right] at hs
      by_cases hc : c = a
      · subst hc
        simp [pyReplaceAux, List.isPrefixOf, ih rest hs]
      · simp [pyReplaceAux, List.isPrefixOf, Ne.symm hc, hc, ih rest hs]

theorem pyReplace_singleton (a b : Char) (s : PyStr) :
    pyReplace [a] [b] s = s.map (fun c => if c = a then b else c) :=
  pyReplaceAux_singleton a b s.length s (Nat.le_refl _)

theorem mem_pyReplace_xy {c : Char} {s : PyStr} (hs : c ∈ s) (hne : c ≠ 'x') :
    c ∈ pyReplace ("x".data) ("y".data) s := by
  rw [x_data_eq, y_data_eq, pyReplace_singleton]
  exact List.mem_map.mpr ⟨c, hs, by simp [hne]⟩

theorem ne_nil_of_pyContains {root sub : PyStr} (h : pyContains root sub = true)
    (hsub : sub ≠ []) : root ≠ [] := by
  cases root with
  | nil =>
    simp only [pyContains, hasSubstring, List.isEmpty_iff] at h
    exact absurd h hsub
  | cons c rest => simp

theorem slash_mem_osPathJoin {root : PyStr} (fname : PyStr) (hroot : root ≠ []) :
    '/' ∈ osPathJoin root fname := by
  unfold osPathJoin
  split
  · next h =>
    obtain ⟨ys, rfl⟩ := List.head?_eq_some_iff.mp h
    exact List.mem_cons_self _ _
  · split
    · next h =>
      cases h with
      | inl h0 => exact absurd h0 hroot
      | inr hl => exact List.mem_append.mpr (Or.inl (List.mem_of_getLast?_eq_some hl))
    · exact List.mem_append.mpr (Or.inr (List.mem_cons_self _ _))

theorem classifyFile_eq_some {root fname : PyStr} {extensions : List PyStr} {r : SampleRecord}
    (h : classifyFile root fname extensions = some r) :
    r.path_x = osPathJoin root fname ∧
    has_file_allowed_extension fname extensions = true ∧
    ((r.label = 0 ∧ r.path_y = ("empty".data)) ∨
     ((r.label = 1 ∨ r.label = 2) ∧ r.path_y = pyReplace ("x".data) ("y".data) r.path_x ∧
       pyContains root ("x".data) = true)) := by
  unfold classifyFile at h
  split at h
  · next hc =>
    obtain rfl := (Option.some.inj h).symm
    exact ⟨rfl, (Bool.and_eq_true _ _ ▸ hc).1, Or.inl ⟨rfl, rfl⟩⟩
  · split at h
    · next hc =>
      split at h
      · obtain rfl := (Option.some.inj h).symm
        exact ⟨rfl, (Bool.and_eq_true _ _ ▸ hc).1,
          Or.inr ⟨Or.inr rfl, rfl, (Bool.and_eq_true _ _ ▸ hc).2⟩⟩
      · obtain rfl := (Option.some.inj h).symm
        exact ⟨rfl, (Bool.and_eq_true _ _ ▸ hc).1,
          Or.inr ⟨Or.inl rfl, rfl, (Bool.and_eq_true _ _ ▸ hc).2⟩⟩
    · cases h

theorem mem_make_dataset {walk : Walk} {extensions : List PyStr} {r : SampleRecord} :
    r ∈ make_dataset walk extensions ↔
      ∃ entry, entry ∈ walk ∧ ∃ fname, fname ∈ entry.2 ∧
        classifyFile entry.1 fname extensions = some r := by
  simp [make_dataset, List.mem_flatMap, List.mem_filterMap]

/-- The classification invariant satisfied by every record `make_dataset`
produces: label 0 records carry the `'empty'` sentinel, label 1 and 2
records carry the `'x' → 'y'` replacement of their own input path, which
(containing the `'/'` that `os.path.join` inserted) is never the sentinel. -/
theorem make_dataset_mem_spec {walk : Walk} {extensions : List PyStr} {r : SampleRecord}
    (hr : r ∈ make_dataset walk extensions) :
    (r.label = 0 ∧ r.path_y = ("empty".data)) ∨
    ((r.label = 1 ∨ r.label = 2) ∧ r.path_y = pyReplace ("x".data) ("y".data) r.path_x ∧
      r.path_y ≠ ("empty".data)) := by
  obtain ⟨entry, hentry, fname, hfn, hcl⟩ := mem_make_dataset.mp hr
  obtain ⟨hx, -, hcase⟩ := classifyFile_eq_some hcl
  cases hcase with
  | inl h0 => exact Or.inl h0
  | inr h12 =>
    refine Or.inr ⟨h12.1, h12.2.1, ?_⟩
    have hroot : entry.1 ≠ [] := ne_nil_of_pyContains h12.2.2 (by decide)
    have hslash : '/' ∈ r.path_x := hx ▸ slash_mem_osPathJoin fname hroot
    have hy : '/' ∈ r.path_y := h12.2.1 ▸ mem_pyReplace_xy hslash (by decide)
    intro hemp
    rw [hemp] at hy
    exact absurd hy (by decide)

theorem pyListGet_eq_none_iff {α : Type} (l : List α) (i : Int) :
    pyListGet l i = none ↔ i < -(l.length : Int) ∨ (l.length : Int) ≤ i := by
  simp only [pyListGet]
  by_cases hi : i < 0
  · simp only [if_pos hi]
    by_cases hj : 0 ≤ i + (l.length : Int) ∧ i + (l.length : Int) < (l.length : Int)
    · rw [if_pos hj]
      constructor
      · intro h
        rw [List.get?_eq_none] at h
        omega
      · intro h
        omega
    · rw [if_neg hj]
      simp only [true_iff]
      omega
  · simp only [if_neg hi]
    by_cases hj : 0 ≤ i ∧ i < (l.length : Int)
    · rw [if_pos hj]
      constructor
      · intro h
        rw [List.get?_eq_none] at h
        omega
      · intro h
        omega
    · rw [if_neg hj]
      simp only [true_iff]
      omega

theorem pyListGet_map {α β : Type} (f : α → β) (l : List α) (i : Int) :
    pyListGet (l.map f) i = (pyListGet l i).map f := by
  simp only [pyListGet, List.length_map]
  split
  · split
    · exact List.get?_map f l _
    · rfl
  · split
    · exact List.get?_map f l _
    · rfl

theorem pyListGet_mem {α : Type} {l : List α} {i : Int} {a : α}
    (h : pyListGet l i = some a) : a ∈ l := by
  simp only [pyListGet] at h
  split at h
  · split at h
    · exact List.get?_mem h
    · cases h
  · split at h
    · exact List.get?_mem h
    · cases h

theorem init_ok_elim {walk : Walk} {root : PyStr} {loader : PyStr → PILImage}
    {extensions : List PyStr} {patch_size : Nat}
    {transform : Option (PILImage → PILImage → PILImage × PILImage)} {d : DatasetFolder}
    (h : DatasetFolder.init walk root loader extensions patch_size transform = Except.ok d) :
    d.samples = (make_dataset walk extensions).map (fun ele => (ele.path_x, ele.path_y)) ∧
    d.classes = (make_dataset walk extensions).map (fun ele => ele.label) ∧
    d.patch_size = patch_size ∧ d.transform = transform ∧ d.loader = loader := by
  simp only [DatasetFolder.init] at h
  split at h
  · cases h
  · obtain rfl := (Except.ok.inj h).symm
    exact ⟨rfl, rfl, rfl, rfl, rfl⟩

/-- Looking up `samples[i]` on a constructed dataset reaches a record of
`make_dataset`, whose label is what `classes[i]` yields at the same index. -/
theorem init_sample_record {walk : Walk} {root : PyStr} {loader : PyStr → PILImage}
    {extensions : List PyStr} {patch_size : Nat}
    {transform : Option (PILImage → PILImage → PILImage × PILImage)} {d : DatasetFolder}
    (h : DatasetFolder.init walk root loader extensions patch_size transform = Except.ok d)
    (i : Int) {px py : PyStr} (hs : pyListGet d.samples i = some (px, py)) :
    ∃ r : SampleRecord, r ∈ make_dataset walk extensions ∧ r.path_x = px ∧ r.path_y = py ∧
      pyListGet d.classes i = some r.label := by
  obtain ⟨hsamp, hcls, -, -, -⟩ := init_ok_elim h
  rw [hsamp, pyListGet_map] at hs
  rw [hcls, pyListGet_map]
  cases hr : pyListGet (make_dataset walk extensions) i with
  | none => rw [hr] at hs; cases hs
  | some r =>
    rw [hr] at hs
    simp only [Option.map_some'] at hs
    obtain ⟨h1, h2⟩ := Prod.mk.inj (Option.some.inj hs)
    exact ⟨r, pyListGet_mem hr, h1, h2, rfl⟩

/-! ### Claim theorems -/

/-- C7: every record produced by discovery carries exactly one label, which
lies in {0, 1, 2}, and its target path is always present (never null):
the label is 0 exactly when `target_path` is the `'empty'` sentinel, and
every record with label 1 or 2 carries the derived replacement target path,
which is never the sentinel. -/
theorem C7_record_invariant {walk : Walk} {extensions : List PyStr} {r : SampleRecord}
    (hr : r ∈ make_dataset walk extensions) :
    (r.label = 0 ∨ r.label = 1 ∨ r.label = 2) ∧
    (r.label = 0 ↔ r.path_y = ("empty".data)) ∧
    ((r.label = 1 ∨ r.label = 2) →
      r.path_y = pyReplace ("x".data) ("y".data) r.path_x ∧ r.path_y ≠ ("empty".data)) := by
  rcases make_dataset_mem_spec hr with ⟨h0, hy⟩ | ⟨h12, hrep, hne⟩
  · refine ⟨Or.inl h0, ⟨fun _ => hy, fun _ => h0⟩, ?_⟩
    intro h
    rcases h with h | h <;> omega
  · refine ⟨Or.inr h12, ⟨?_, ?_⟩, fun _ => ⟨hrep, hne⟩⟩
    · intro h0
      rcases h12 with h | h <;> omega
    · intro hy
      exact absurd hy hne

/-- Witness for C7 at the concrete label-1 record discovered from
`witWalk`. -/
theorem C7_record_invariant_witness :
    witRec1 ∈ make_dataset witWalk IMG_EXTENSIONS ∧
    ((witRec1.label = 0 ∨ witRec1.label = 1 ∨ witRec1.label = 2) ∧
     (witRec1.label = 0 ↔ witRec1.path_y = ("empty".data)) ∧
     ((witRec1.label = 1 ∨ witRec1.label = 2) →
       witRec1.path_y = pyReplace ("x".data) ("y".data) witRec1.path_x ∧
       witRec1.path_y ≠ ("empty".data))) :=
  ⟨by decide, @C7_record_invariant witWalk IMG_EXTENSIONS witRec1 (by decide)⟩

/-- C1 as stated fails: discovery over the single directory `"x"` holding
the file `"x1.png"` produces the record whose `target_path` is
`"y/y1.png"` — Python's `str.replace` also rewrote the second `'x'`, the
one inside the filename — while replacing only the first occurrence would
give `"y/x1.png"`. -/
theorem C1_replace_first_cex :
    ((⟨("x/x1.png".data), ("y/y1.png".data), 1⟩ : SampleRecord) ∈
      make_dataset [(("x".data), [("x1.png".data)])] IMG_EXTENSIONS) ∧
    ("y/y1.png".data) ≠ replaceFirstSpec ("x".data) ("y".data) ("x/x1.png".data) := by
  constructor
  · decide
  · decide

/-- C1 (amended): for every record produced by discovery with label 1 or 2,
`target_path` equals `input_path` with EVERY occurrence of `"x"` replaced by
`"y"` (Python `str.replace` replaces all occurrences), every character other
than an `'x'` left unchanged. -/
theorem C1_target_replace_all {walk : Walk} {extensions : List PyStr} {r : SampleRecord}
    (hr : r ∈ make_dataset walk extensions) (hl : r.label = 1 ∨ r.label = 2) :
    r.path_y = pyReplace ("x".data) ("y".data) r.path_x ∧
    r.path_y = r.path_x.map (fun c => if c = 'x' then 'y' else c) := by
  rcases make_dataset_mem_spec hr with ⟨h0, -⟩ | ⟨-, hrep, -⟩
  · rcases hl with h | h <;> omega
  · refine ⟨hrep, ?_⟩
    rw [hrep, x_data_eq, y_data_eq, pyReplace_singleton]

/-- Witness for the amended C1 at the concrete label-1 record discovered
from `witWalk`. -/
theorem C1_target_replace_all_witness :
    witRec1 ∈ make_dataset witWalk IMG_EXTENSIONS ∧
    (witRec1.label = 1 ∨ witRec1.label = 2) ∧
    (witRec1.path_y = pyReplace ("x".data) ("y".data) witRec1.path_x ∧
     witRec1.path_y = witRec1.path_x.map (fun c => if c = 'x' then 'y' else c)) :=
  ⟨by decide, by decide, @C1_target_replace_all witWalk IMG_EXTENSIONS witRec1 (by decide) (by decide)⟩

/-- C9 as stated fails: the extension entries are matched verbatim, so the
filter's outcome is NOT independent of the letter case of the extension
entry: `"a.png"` matches the entry `".png"` but not the entry `".PNG"`. -/
theorem C9_extension_case_cex :
    has_file_allowed_extension ("a.png".data) [(".png".data)] = true ∧
    has_file_allowed_extension ("a.png".data) [(".PNG".data)] = false := by
  constructor
  · decide
  · decide

/-- C9 (amended): the filter is case-insensitive in the filename only —
the outcome depends on nothing but the lowercased filename — while the
extension entries are matched verbatim (the source docstring expects them
lowercase). -/
theorem C9_filename_case_insensitive {f1 f2 : PyStr} (extensions : List PyStr)
    (h : pyToLowerStr f1 = pyToLowerStr f2) :
    has_file_allowed_extension f1 extensions = has_file_allowed_extension f2 extensions := by
  simp only [has_file_allowed_extension, h]

/-- Witness for the amended C9: `"A.PNG"` and `"a.png"` lower to the same
string, so the filter treats them alike. -/
theorem C9_filename_case_insensitive_witness :
    pyToLowerStr ("A.PNG".data) = pyToLowerStr ("a.png".data) ∧
    has_file_allowed_extension ("A.PNG".data) IMG_EXTENSIONS =
      has_file_allowed_extension ("a.png".data) IMG_EXTENSIONS :=
  ⟨by decide, C9_filename_case_insensitive IMG_EXTENSIONS (by decide)⟩

/-- C10: the default list's `'webp'` entry has no leading dot, so any
filename whose lowercased form merely ends in the letters "webp" passes the
default image-file filter, while every other entry of `IMG_EXTENSIONS`
begins with `'.'` — every other supported format requires a dot-prefixed
suffix. -/
theorem C10_webp_no_dot {f : PyStr}
    (h : ("webp".data).isSuffixOf (pyToLowerStr f) = true) :
    is_image_file f = true ∧
    ∀ e ∈ IMG_EXTENSIONS, e ≠ ("webp".data) → e.head? = some '.' := by
  refine ⟨?_, by decide⟩
  simp only [is_image_file, has_file_allowed_extension, IMG_EXTENSIONS, List.any_cons,
    List.any_nil, pyEndsWith, h]
  simp

/-- Witness for C10: the dotless filename `"imagewebp"` passes the default
filter. -/
theorem C10_webp_no_dot_witness :
    ("webp".data).isSuffixOf (pyToLowerStr ("imagewebp".data)) = true ∧
    (is_image_file ("imagewebp".data) = true ∧
     ∀ e ∈ IMG_EXTENSIONS, e ≠ ("webp".data) → e.head? = some '.') :=
  ⟨by decide, C10_webp_no_dot (by decide)⟩

/-- C4 as stated fails: discovery over the directory `"xy"` (it contains an
`'x'`, so its files qualify) produces a record whose input path contains the
character `'y'`, and `pil_loader` then loads that INPUT image in
single-channel `'L'` mode, not RGB. -/
theorem C4_rgb_cex :
    ((⟨("xy/a.png".data), ("yy/a.png".data), 1⟩ : SampleRecord) ∈
      make_dataset [(("xy".data), [("a.png".data)])] IMG_EXTENSIONS) ∧
    (pil_loader witDecode ("xy/a.png".data)).mode = Mode.L := by
  constructor
  · decide
  · decide

/-- C4 (amended): under the default (PIL, non-accimage backend) loader an
image is loaded in RGB exactly when its path does not contain the character
`'y'`; a path containing `'y'` is converted to single-channel grayscale
instead. -/
theorem C4_loader_mode (decode : PyStr → PILImage) (path : PyStr) :
    (pil_loader decode path).mode =
      (if pyContains path ("y".data) then Mode.L else Mode.RGB) := by
  unfold pil_loader pilConvert
  split
  · rfl
  · rfl

/-- C5: `get` on a record carrying the `'empty'` sentinel target, with no
transform configured, returns area 0.0 and a single-channel all-zero target
image of shape `(patch_size, patch_size)`. -/
theorem C5_empty_target {d : DatasetFolder} {i : Int} {px : PyStr} {l : Int}
    (hs : pyListGet d.samples i = some (px, ("empty".data)))
    (hc : pyListGet d.classes i = some l)
    (ht : d.transform = none) :
    ∃ s t, d.getitem i = some (s, t, 0, l) ∧ t.mode = Mode.L ∧
      t.pixels.length = d.patch_size ∧
      ∀ row ∈ t.pixels, row.length = d.patch_size ∧ ∀ v ∈ row, v = 0 := by
  refine ⟨d.loader px, ⟨Mode.L, npZeros d.patch_size⟩, ?_, rfl, by simp [npZeros], ?_⟩
  · simp only [DatasetFolder.getitem, hs, hc, ht, DatasetFolder.targetAndArea]
    simp
  · intro row hrow
    rw [List.eq_of_mem_replicate hrow]
    exact ⟨List.length_replicate _ _, fun v hv => List.eq_of_mem_replicate hv⟩

/-- Witness for C5 at index 1 of the concrete dataset `witDS` (the
`background` record). -/
theorem C5_empty_target_witness :
    pyListGet witDS.samples 1 = some (("background/b.png".data), ("empty".data)) ∧
    pyListGet witDS.classes 1 = some 0 ∧
    witDS.transform = none ∧
    (∃ s t, witDS.getitem 1 = some (s, t, 0, 0) ∧ t.mode = Mode.L ∧
      t.pixels.length = witDS.patch_size ∧
      ∀ row ∈ t.pixels, row.length = witDS.patch_size ∧ ∀ v ∈ row, v = 0) :=
  ⟨by decide, by decide, rfl,
   @C5_empty_target witDS 1 ("background/b.png".data) 0 (by decide) (by decide) rfl⟩

/-- C2 as stated fails: on the concrete two-record dataset built by
`DatasetFolder.init` over `witWalk`, the call `get(-1)` does not raise an
out-of-range error — Python's negative indexing wraps once, so it returns
the last record's tuple. -/
theorem C2_get_neg_one_cex :
    DatasetFolder.init witWalk ("data".data) witLoader IMG_EXTENSIONS 2 none =
      Except.ok witDS ∧
    witDS.getitem (-1) =
      some (⟨Mode.RGB, [[1, 2], [3, 4]]⟩, ⟨Mode.L, npZeros 2⟩, 0, 0) :=
  ⟨rfl, by decide⟩

/-- C2 (amended): indexing follows Python list semantics — `get(index)`
fails and returns no tuple exactly when `index < -len(records)` or
`index ≥ len(records)`.  In particular `get(len(records))` fails, while
`get(-1)` on a nonempty dataset returns the last record's tuple. -/
theorem C2_getitem_range (d : DatasetFolder)
    (h : d.classes.length = d.samples.length) (index : Int) :
    d.getitem index = none ↔ index < -(d.len : Int) ∨ (d.len : Int) ≤ index := by
  cases hs : pyListGet d.samples index with
  | none =>
    have hout := (pyListGet_eq_none_iff d.samples index).mp hs
    simp only [DatasetFolder.getitem, hs]
    simpa [DatasetFolder.len] using hout
  | some pxy =>
    have hin : ¬(index < -((d.samples.length : Int)) ∨ (d.samples.length : Int) ≤ index) := by
      intro hout
      rw [← pyListGet_eq_none_iff d.samples index] at hout
      rw [hout] at hs
      cases hs
    cases hcl : pyListGet d.classes index with
    | none =>
      exfalso
      have := (pyListGet_eq_none_iff d.classes index).mp hcl
      rw [h] at this
      exact hin this
    | some l =>
      obtain ⟨px, py⟩ := pxy
      simp only [DatasetFolder.getitem, hs, hcl, DatasetFolder.len]
      cases ht : d.transform with
      | none => simpa [DatasetFolder.len] using hin
      | some t => simpa [DatasetFolder.len] using hin

/-- Witness for the amended C2 on the concrete dataset `witDS`:
`get(2)` fails on the two-record dataset (2 ≥ len), and unfolding the same
equivalence at `-1` shows `get(-1)` does not fail. -/
theorem C2_getitem_range_witness :
    witDS.getitem 2 = none :=
  (C2_getitem_range witDS rfl 2).mpr (by decide)

/-- C6: construction fails (raising the "Found 0 files" error) exactly when
discovery over the walk produces zero records; and whenever some file of
the walk qualifies, discovery is non-empty and construction succeeds,
storing the complete record list — no partial or fallback dataset. -/
theorem C6_init_empty_iff (walk : Walk) (root : PyStr) (loader : PyStr → PILImage)
    (extensions : List PyStr) (patch_size : Nat)
    (transform : Option (PILImage → PILImage → PILImage × PILImage)) :
    ((∃ msg, DatasetFolder.init walk root loader extensions patch_size transform =
        Except.error msg) ↔ make_dataset walk extensions = []) ∧
    (∀ entry ∈ walk, ∀ fname ∈ entry.2, ∀ r : SampleRecord,
      classifyFile entry.1 fname extensions = some r →
      make_dataset walk extensions ≠ [] ∧
      ∃ d, DatasetFolder.init walk root loader extensions patch_size transform = Except.ok d ∧
        d.samples = (make_dataset walk extensions).map (fun ele => (ele.path_x, ele.path_y)) ∧
        d.samples ≠ []) := by
  constructor
  · simp only [DatasetFolder.init]
    split
    · next hlen =>
      constructor
      · intro _
        exact List.length_eq_zero.mp hlen
      · intro _
        exact ⟨_, rfl⟩
    · next hlen =>
      constructor
      · rintro ⟨msg, hmsg⟩
        cases hmsg
      · intro hnil
        exact absurd (by rw [hnil]; rfl) hlen
  · intro entry hentry fname hfn r hcl
    have hmem : r ∈ make_dataset walk extensions :=
      mem_make_dataset.mpr ⟨entry, hentry, fname, hfn, hcl⟩
    have hne : make_dataset walk extensions ≠ [] := List.ne_nil_of_mem hmem
    refine ⟨hne, ?_⟩
    simp only [DatasetFolder.init]
    split
    · next hlen => exact absurd (List.length_eq_zero.mp hlen) hne
    · refine ⟨_, rfl, rfl, ?_⟩
      simp only [ne_eq, List.map_eq_nil_iff]
      exact hne

/-- Witness for C6 at the concrete walk `witWalk`, whose first entry holds
the qualifying file `"a.png"`. -/
theorem C6_init_empty_iff_witness :
    make_dataset witWalk IMG_EXTENSIONS ≠ [] ∧
    ∃ d, DatasetFolder.init witWalk ("data".data) witLoader IMG_EXTENSIONS 2 none =
        Except.ok d ∧
      d.samples = (make_dataset witWalk IMG_EXTENSIONS).map (fun ele => (ele.path_x, ele.path_y)) ∧
      d.samples ≠ [] :=
  (C6_init_empty_iff witWalk ("data".data) witLoader IMG_EXTENSIONS 2 none).2
    (("x".data), [("a.png".data)]) (by decide) ("a.png".data) (by decide) witRec1 (by decide)

/-- C3: on a constructed dataset, `get(i)` for a record with a non-`'empty'`
target path returns an area equal to the sum of the coordinate indices of
the returned target's nonzero pixel positions divided by its pixel count —
a statistic that differs from the count of nonzero pixels divided by pixel
count, as the concrete grid `[[0, 0, 7]]` shows. -/
theorem C3_area_is_index_sum {walk : Walk} {root : PyStr} {loader : PyStr → PILImage}
    {extensions : List PyStr} {patch_size : Nat}
    {transform : Option (PILImage → PILImage → PILImage × PILImage)} {d : DatasetFolder}
    (hd : DatasetFolder.init walk root loader extensions patch_size transform = Except.ok d)
    (i : Int) {px py : PyStr} (hs : pyListGet d.samples i = some (px, py))
    (hpy : py ≠ ("empty".data)) :
    (∃ s t a l, d.getitem i = some (s, t, a, l) ∧ a = npArea t.pixels) ∧
    npArea [[0, 0, 7]] ≠ (npNonzeroCount [[0, 0, 7]] : ℚ) / (npSize [[0, 0, 7]] : ℚ) := by
  constructor
  · obtain ⟨r, hmem, hpx, hpyr, hcl⟩ := init_sample_record hd i hs
    have hl0 : r.label ≠ 0 := by
      intro h0
      rcases make_dataset_mem_spec hmem with ⟨-, hy⟩ | ⟨h12, -, -⟩
      · exact hpy (hpyr ▸ hy)
      · rcases h12 with h | h <;> omega
    have hta : d.targetAndArea py = (d.loader py, npArea (d.loader py).pixels) := by
      simp only [DatasetFolder.targetAndArea, if_pos hpy]
    cases ht : d.transform with
    | none =>
      refine ⟨d.loader px, d.loader py, npArea (d.loader py).pixels, r.label, ?_, rfl⟩
      simp only [DatasetFolder.getitem, hs, hcl, ht, hta]
    | some t =>
      refine ⟨(t (d.loader px) (d.loader py)).1, (t (d.loader px) (d.loader py)).2,
        npArea (t (d.loader px) (d.loader py)).2.pixels, r.label, ?_, rfl⟩
      simp only [DatasetFolder.getitem, hs, hcl, ht, hta]
      simp [hl0]
  · have h1 : npNonzeroIndexSum [[0, 0, 7]] = 2 := rfl
    have h2 : npSize [[0, 0, 7]] = 3 := rfl
    have h3 : npNonzeroCount [[0, 0, 7]] = 1 := rfl
    simp only [npArea, h1, h2, h3]
    norm_num

/-- Witness for C3 at index 0 of the concrete dataset `witDS` (the label-1
record with target `"y/a.png"`). -/
theorem C3_area_is_index_sum_witness :
    pyListGet witDS.samples 0 = some (("x/a.png".data), ("y/a.png".data)) ∧
    (("y/a.png".data) : PyStr) ≠ ("empty".data) ∧
    ((∃ s t a l, witDS.getitem 0 = some (s, t, a, l) ∧ a = npArea t.pixels) ∧
     npArea [[0, 0, 7]] ≠ (npNonzeroCount [[0, 0, 7]] : ℚ) / (npSize [[0, 0, 7]] : ℚ)) :=
  ⟨by decide, by decide,
   @C3_area_is_index_sum witWalk ("data".data) witLoader IMG_EXTENSIONS 2 none witDS rfl 0
     ("x/a.png".data) ("y/a.png".data) (by decide) (by decide)⟩

/-- C8: with a transform configured, `get` applies it jointly to the
(input, target) pair and returns the transformed pair; the returned area is
recomputed from the transformed target by the non-empty-branch formula
exactly when `label ≠ 0`, and stays 0.0 when `label = 0` regardless of the
transformed target's contents. -/
theorem C8_transform_area {walk : Walk} {root : PyStr} {loader : PyStr → PILImage}
    {extensions : List PyStr} {patch_size : Nat}
    {tf : PILImage → PILImage → PILImage × PILImage} {d : DatasetFolder}
    (hd : DatasetFolder.init walk root loader extensions patch_size (some tf) = Except.ok d)
    (i : Int) {px py : PyStr} {l : Int}
    (hs : pyListGet d.samples i = some (px, py))
    (hc : pyListGet d.classes i = some l) :
    (l ≠ 0 → ∃ s t, (s, t) = tf (d.loader px) (d.targetAndArea py).1 ∧
        d.getitem i = some (s, t, npArea t.pixels, l)) ∧
    (l = 0 → ∃ s t, (s, t) = tf (d.loader px) (d.targetAndArea py).1 ∧
        d.getitem i = some (s, t, 0, l)) := by
  have ht : d.transform = some tf := (init_ok_elim hd).2.2.2.1
  constructor
  · intro hl
    refine ⟨(tf (d.loader px) (d.targetAndArea py).1).1,
      (tf (d.loader px) (d.targetAndArea py).1).2, rfl, ?_⟩
    simp only [DatasetFolder.getitem, hs, hc, ht]
    simp [hl]
  · intro hl
    subst hl
    obtain ⟨r, hmem, hpx, hpyr, hcl⟩ := init_sample_record hd i hs
    have hrl : r.label = 0 := by
      rw [hcl] at hc
      exact Option.some.inj hc
    have hpy : py = ("empty".data) := by
      rcases make_dataset_mem_spec hmem with ⟨-, hy⟩ | ⟨h12, -, -⟩
      · exact hpyr ▸ hy
      · rcases h12 with h | h <;> omega
    have hta : (d.targetAndArea py).2 = 0 := by
      subst hpy
      simp [DatasetFolder.targetAndArea]
    refine ⟨(tf (d.loader px) (d.targetAndArea py).1).1,
      (tf (d.loader px) (d.targetAndArea py).1).2, rfl, ?_⟩
    simp only [DatasetFolder.getitem, hs, hc, ht]
    simp [hta]

/-- Witness for C8 at index 1 of the concrete transformed dataset `witDSt`:
the record has label 0, the transform returns an everywhere-nonzero target,
and the returned area is still 0. -/
theorem C8_transform_area_witness :
    pyListGet witDSt.samples 1 = some (("background/b.png".data), ("empty".data)) ∧
    pyListGet witDSt.classes 1 = some 0 ∧
    ((0 : Int) = 0 → ∃ s t,
      (s, t) = witTransform (witDSt.loader ("background/b.png".data))
        (witDSt.targetAndArea ("empty".data)).1 ∧
      witDSt.getitem 1 = some (s, t, 0, 0)) :=
  ⟨by decide, by decide,
   (@C8_transform_area witWalk ("data".data) witLoader IMG_EXTENSIONS 2 witTransform witDSt
     rfl 1 ("background/b.png".data) ("empty".data) 0 (by decide) (by decide)).2⟩

end Penguins
